import Mathlib

/-!
Verification of the row-buffer and array-interchange core of the repository.

The embedding follows `crates/polars-row/src/row.rs` and
`crates/polars-arrow/src/array/primitive/data.rs`. Machine integers are
modelled as `Nat` (u64/usize) and `Int` (i64); byte buffers as `List Nat`;
Rust panics (assertion failures, out-of-bounds indexing, `unwrap` on `None`)
as `Option.none` results.
-/

namespace PolarsRow

/-- Per-column configuration, `EncodingField` in `row.rs`. -/
structure EncodingField where
  descending : Bool
  nulls_last : Bool
  no_order : Bool
deriving DecidableEq

/-- Rust `#[derive(Default)]`: every `bool` field defaults to `false`. -/
def EncodingField.default : EncodingField :=
  { descending := false, nulls_last := false, no_order := false }

/-- `EncodingField::new_sorted` from `row.rs`. -/
def EncodingField.new_sorted (descending nulls_last : Bool) : EncodingField :=
  { descending := descending, nulls_last := nulls_last, no_order := false }

/-- `EncodingField::new_unsorted` from `row.rs`: `no_order = true`, the rest
from `Default::default()`. -/
def EncodingField.new_unsorted : EncodingField :=
  { EncodingField.default with no_order := true }

/-- `RowsEncoded` from `row.rs`: a byte buffer and a `Vec<u64>` of offsets. -/
structure RowsEncoded where
  values : List Nat
  offsets : List Nat
deriving DecidableEq

/-- Rust `#[derive(Default)]` for `RowsEncoded`: both vectors empty. -/
def RowsEncoded.default : RowsEncoded := { values := [], offsets := [] }

/-- `RowsEncoded::new` from `row.rs`. -/
def RowsEncoded.new (values offsets : List Nat) : RowsEncoded :=
  { values := values, offsets := offsets }

/-- `i64::MAX` as an unsigned value. -/
def I64_MAX : Nat := 2 ^ 63 - 1

/-- `checks` from `row.rs`:
`assert!(*offsets.last().unwrap() < i64::MAX as u64, "overflow")`.
`none` models a panic: either `unwrap` of an empty vector's `last()`,
or the assertion firing. -/
def checks (offsets : List Nat) : Option Unit :=
  match offsets.getLast? with
  | none => none
  | some l => if l < I64_MAX then some () else none

/-- Bit-pattern reinterpretation of a u64 as an i64
(`bytemuck::cast_vec::<u64, i64>` / `bytemuck::cast_slice::<u64, i64>`). -/
def u64ToI64 (x : Nat) : Int :=
  if x < 2 ^ 63 then (x : Int) else (x : Int) - 2 ^ 64

/-- Datatype tag carried by the exported arrays. -/
inductive ArrowDataType where
  | LargeBinary
deriving DecidableEq

/-- `BinaryArray<i64>`: signed offsets, value bytes, optional validity.
Modelled from the spec: `BinaryArray` lives outside `src/`; per the spec the
export paths trust the buffer invariants without re-checking them, so
construction here performs no validation. -/
structure BinaryArray where
  dtype : ArrowDataType
  offsets : List Int
  values : List Nat
  validity : Option (List Bool)
deriving DecidableEq

/-- Length of a binary array: one fewer than its offset count. -/
def BinaryArray.len (a : BinaryArray) : Nat := a.offsets.length - 1

/-- `rows_to_array` from `row.rs`: run `checks`, reinterpret the offsets as
i64, and build a `LargeBinary` array with no validity. `none` models the
panic of `checks`. -/
def rows_to_array (buf : List Nat) (offsets : List Nat) : Option BinaryArray :=
  match checks offsets with
  | none => none
  | some _ =>
    some { dtype := ArrowDataType.LargeBinary
           offsets := offsets.map u64ToI64
           values := buf
           validity := none }

/-- `RowsEncoded::borrow_array` from `row.rs`: run `checks`, wrap the same
two buffers (zero copy, offsets reinterpreted as i64) into a `LargeBinary`
array with no validity. -/
def RowsEncoded.borrow_array (r : RowsEncoded) : Option BinaryArray :=
  match checks r.offsets with
  | none => none
  | some _ =>
    some { dtype := ArrowDataType.LargeBinary
           offsets := r.offsets.map u64ToI64
           values := r.values
           validity := none }

/-- `RowsEncoded::into_array` from `row.rs`. -/
def RowsEncoded.into_array (r : RowsEncoded) : Option BinaryArray :=
  rows_to_array r.values r.offsets

/-- The byte slice `v[a..b]`. -/
def listSlice (v : List Nat) (a b : Nat) : List Nat := (v.drop a).take (b - a)

/-- A binary-view array, keeping only the per-row byte content. -/
structure BinaryViewArray where
  rows : List (List Nat)
deriving DecidableEq

/-- Modelled from the spec: `binary_to_binview` (an arrow cast kernel not
under `src/`) allocates one view per row of the binary array without
re-copying the row bytes. -/
def binary_to_binview (a : BinaryArray) : BinaryViewArray :=
  { rows := (a.offsets.zip a.offsets.tail).map
      (fun p => listSlice a.values p.1.toNat p.2.toNat) }

/-- `RowsEncoded::into_binview` from `row.rs`. -/
def RowsEncoded.into_binview (r : RowsEncoded) : Option BinaryViewArray :=
  r.into_array.map binary_to_binview

/-- `RowsEncodedIter` from `row.rs`: current start offset, the remaining
end offsets (`self.offsets[1..].iter()`; `ends` stands for the Rust field
named `end`), and the borrowed byte buffer. -/
structure RowsEncodedIter where
  offset : Nat
  ends : List Nat
  values : List Nat
deriving DecidableEq

/-- `RowsEncoded::iter` from `row.rs`: `self.offsets[1..]` and
`self.offsets[0]` both panic (`none`) when `offsets` is empty; otherwise a
fresh iterator borrowing `values`. -/
def RowsEncoded.iter (r : RowsEncoded) : Option RowsEncodedIter :=
  match r.offsets with
  | [] => none
  | o :: rest => some { offset := o, ends := rest, values := r.values }

/-- `RowsEncodedIter::next` from `row.rs`: take the next end offset, yield
`values[offset..new_offset]`, advance `offset`. -/
def RowsEncodedIter.next (it : RowsEncodedIter) :
    Option (List Nat × RowsEncodedIter) :=
  match it.ends with
  | [] => none
  | e :: rest =>
    some (listSlice it.values it.offset e,
          { offset := e, ends := rest, values := it.values })

/-- Driving the iterator to exhaustion, structurally on the end offsets. -/
def collectFrom (values : List Nat) : Nat → List Nat → List (List Nat)
  | _, [] => []
  | off, e :: rest => listSlice values off e :: collectFrom values e rest

/-- All items an iterator yields until `next` returns `none`. -/
def RowsEncodedIter.collect (it : RowsEncodedIter) : List (List Nat) :=
  collectFrom it.values it.offset it.ends

/-- The full sequence produced by one call to `iter()`. -/
def RowsEncoded.iterCollect (r : RowsEncoded) : Option (List (List Nat)) :=
  r.iter.map RowsEncodedIter.collect

end PolarsRow

namespace PolarsArrow

/-- Datatype tag of a primitive column; the external tag mapping is assumed
bijective for supported primitive types, so one tag type serves both sides
and the mapping is the identity. -/
inductive PrimDType where
  | int8 | int16 | int32 | int64
  | uint8 | uint16 | uint32 | uint64
deriving DecidableEq

/-- `Buffer<T>` of the typed column side: reference-counted storage plus an
offset/length window into it. -/
structure Buffer (T : Type) where
  storage : List T
  offset : Nat
  length : Nat

/-- The elements the buffer's window exposes. -/
def Buffer.window {T : Type} (b : Buffer T) : List T :=
  (b.storage.drop b.offset).take b.length

/-- `Buffer::slice(offset, length)`: advance the window start, set its
length; the storage is untouched. -/
def Buffer.slice {T : Type} (b : Buffer T) (offset length : Nat) : Buffer T :=
  { storage := b.storage, offset := b.offset + offset, length := length }

/-- Modelled from the spec: the `Buffer<T>` → interchange-buffer conversion
(not under `src/`) shares exactly the buffer's logical window, zero copy. -/
def Buffer.into_arrow {T : Type} (b : Buffer T) : List T := b.window

/-- Modelled from the spec: the interchange-buffer → `Buffer<T>` conversion
(not under `src/`) views the whole shared region, window initially full. -/
def Buffer.from_arrow {T : Type} (l : List T) : Buffer T :=
  { storage := l, offset := 0, length := l.length }

/-- `PrimitiveArray<T>` from the typed column side: datatype tag, a windowed
value buffer, and an optional validity bitmap. -/
structure PrimitiveArray (T : Type) where
  dtype : PrimDType
  values : Buffer T
  validity : Option (List Bool)

/-- `PrimitiveArray::len` is its value buffer's window length. -/
def PrimitiveArray.len {T : Type} (a : PrimitiveArray T) : Nat :=
  a.values.length

/-- The generic interchange descriptor (`ArrayData`): datatype tag, logical
length, window offset, raw buffers, optional null bitmap. -/
structure ArrayData (T : Type) where
  dtype : PrimDType
  len : Nat
  offset : Nat
  buffers : List (List T)
  nulls : Option (List Bool)

/-- `Arrow2Arrow::to_data` from `data.rs`: builds the descriptor with the
column's length, offset 0 (the builder default), the single shared value
buffer, and the validity bitmap converted to the null representation
(modelled as the identity on `List Bool`). -/
def to_data {T : Type} (a : PrimitiveArray T) : ArrayData T :=
  { dtype := a.dtype
    len := a.len
    offset := 0
    buffers := [a.values.into_arrow]
    nulls := a.validity }

/-- `Arrow2Arrow::from_data` from `data.rs`: reinterpret the first raw
buffer as typed, slice it by the descriptor's offset and length, and wrap
the null bitmap back into a validity bitmap. -/
def from_data {T : Type} (data : ArrayData T) : PrimitiveArray T :=
  { dtype := data.dtype
    values := (Buffer.from_arrow (data.buffers.getD 0 [])).slice
      data.offset data.len
    validity := data.nulls }

end PolarsArrow

namespace PolarsRow

/-- `collect` is the unfolding of `next`: it yields exactly the items `next`
produces, in order. -/
theorem RowsEncodedIter.collect_eq_next (it : RowsEncodedIter) :
    it.collect = match it.next with
      | none => []
      | some (s, it2) => s :: it2.collect := by
  cases it with
  | mk off ends values => cases ends <;> rfl

theorem collectFrom_length (values : List Nat) (off : Nat) (rest : List Nat) :
    (collectFrom values off rest).length = rest.length := by
  induction rest generalizing off with
  | nil => rfl
  | cons e rest ih => simp [collectFrom, ih]

theorem collectFrom_getD (values : List Nat) (off : Nat) (rest : List Nat)
    (i : Nat) (h : i < rest.length) :
    (collectFrom values off rest).getD i [] =
      listSlice values ((off :: rest).getD i 0) (rest.getD i 0) := by
  induction rest generalizing off i with
  | nil => simp at h
  | cons e rest ih =>
    cases i with
    | zero => rfl
    | succ j =>
      have hj : j < rest.length := by simpa using h
      simpa [collectFrom] using ih e j hj

theorem rows_to_array_validity_none (buf offsets : List Nat)
    (a : BinaryArray) (h : rows_to_array buf offsets = some a) :
    a.validity = none := by
  cases hc : checks offsets with
  | none => simp [rows_to_array, hc] at h
  | some u =>
    simp [rows_to_array, hc] at h
    subst h
    rfl

theorem borrow_array_validity_none (r : RowsEncoded)
    (a : BinaryArray) (h : r.borrow_array = some a) :
    a.validity = none := by
  cases hc : checks r.offsets with
  | none => simp [RowsEncoded.borrow_array, hc] at h
  | some u =>
    simp [RowsEncoded.borrow_array, hc] at h
    subst h
    rfl

/-- Claim C9: `new_sorted d n` sets `descending = d`, `nulls_last = n`,
`no_order = false`; `new_unsorted` sets `no_order = true` with the other two
flags at their default `false`. -/
theorem encoding_field_factories :
    (∀ d n : Bool, EncodingField.new_sorted d n =
      { descending := d, nulls_last := n, no_order := false }) ∧
    EncodingField.new_unsorted =
      { descending := false, nulls_last := false, no_order := true } := by
  exact ⟨fun d n => rfl, rfl⟩

/-- Claim C7: for the empty row buffer (`offsets = [0]`, `values = ""`),
`iter()` yields no elements, and `borrow_array()` and `into_array()` succeed
with a binary array of length zero. -/
theorem empty_buffer_edge_case :
    (RowsEncoded.new [] [0]).iterCollect = some [] ∧
    (∃ a, (RowsEncoded.new [] [0]).borrow_array = some a ∧ a.len = 0) ∧
    (∃ a, (RowsEncoded.new [] [0]).into_array = some a ∧ a.len = 0) := by
  exact ⟨rfl,
    ⟨{ dtype := ArrowDataType.LargeBinary, offsets := [0], values := [],
       validity := none }, rfl, rfl⟩,
    ⟨{ dtype := ArrowDataType.LargeBinary, offsets := [0], values := [],
       validity := none }, rfl, rfl⟩⟩

/-- Claim C10: `RowsEncoded` derives `Default`, so an empty-offsets value is
obtainable; on it, `iter()` panics and the overflow check of the export
paths panics (`unwrap` of `last()` on an empty vector) — no operation
returns a recoverable error for that state. -/
theorem default_rows_encoded_panics :
    RowsEncoded.default.offsets = [] ∧
    RowsEncoded.default.iter = none ∧
    checks RowsEncoded.default.offsets = none ∧
    RowsEncoded.default.borrow_array = none ∧
    RowsEncoded.default.into_array = none ∧
    RowsEncoded.default.into_binview = none := by
  decide

/-- Claim C1 counterexample: a last offset of exactly `2 ^ 63 - 1` is
strictly below `2 ^ 63`, yet every exporting/borrowing operation panics
(the assertion `last < i64::MAX as u64` is strict), contradicting the claim
that it succeeds. -/
theorem overflow_guard_counterexample :
    2 ^ 63 - 1 < 2 ^ 63 ∧
    (RowsEncoded.new [] [2 ^ 63 - 1]).borrow_array = none ∧
    (RowsEncoded.new [] [2 ^ 63 - 1]).into_array = none ∧
    (RowsEncoded.new [] [2 ^ 63 - 1]).into_binview = none := by
  refine ⟨by norm_num, ?_, ?_, ?_⟩ <;> decide

/-- Claim C1 (amended): for a row buffer whose last offset is `l`, each of
`borrow_array`, `into_array` and `into_binview` succeeds iff
`l < 2 ^ 63 - 1` (strictly below `i64::MAX`); for `l ≥ 2 ^ 63 - 1` — in
particular `l = 2 ^ 63 - 1` and every `l ≥ 2 ^ 63` — the overflow assertion
fires and the operation returns no partial result. -/
theorem overflow_guard (r : RowsEncoded) (l : Nat)
    (hl : r.offsets.getLast? = some l) :
    (r.borrow_array.isSome ↔ l < I64_MAX) ∧
    (r.into_array.isSome ↔ l < I64_MAX) ∧
    (r.into_binview.isSome ↔ l < I64_MAX) := by
  have hc : checks r.offsets = if l < I64_MAX then some () else none := by
    simp [checks, hl]
  by_cases h : l < I64_MAX <;>
    simp [RowsEncoded.borrow_array, RowsEncoded.into_array,
      RowsEncoded.into_binview, rows_to_array, hc, h]

theorem overflow_guard_witness :
    ((RowsEncoded.new [] [0]).borrow_array.isSome ↔ 0 < I64_MAX) ∧
    ((RowsEncoded.new [] [0]).into_array.isSome ↔ 0 < I64_MAX) ∧
    ((RowsEncoded.new [] [0]).into_binview.isSome ↔ 0 < I64_MAX) :=
  overflow_guard (RowsEncoded.new [] [0]) 0 rfl

/-- Claim C2: under the producer contract (offsets nonempty,
non-decreasing, last offset equal to `values.len()`), `iter()` yields
exactly `offsets.len() - 1` byte slices, the i-th equal to
`values[offsets[i]..offsets[i+1]]`, in index order. -/
theorem iter_yields_row_slices (values offsets : List Nat)
    (hne : offsets ≠ [])
    (hmono : offsets.Chain' (· ≤ ·))
    (hlast : offsets.getLast? = some values.length) :
    ∃ out, (RowsEncoded.new values offsets).iterCollect = some out ∧
      out.length = offsets.length - 1 ∧
      ∀ i, i < offsets.length - 1 →
        out.getD i [] =
          listSlice values (offsets.getD i 0) (offsets.getD (i + 1) 0) := by
  match offsets, hne with
  | o :: rest, _ =>
    refine ⟨collectFrom values o rest, rfl, ?_, ?_⟩
    · simpa using collectFrom_length values o rest
    · intro i hi
      have h' : i < rest.length := by simpa using hi
      simpa using collectFrom_getD values o rest i h'

theorem iter_yields_row_slices_witness :
    ∃ out, (RowsEncoded.new [5, 6, 7] [0, 1, 3]).iterCollect = some out ∧
      out.length = ([0, 1, 3] : List Nat).length - 1 ∧
      ∀ i, i < ([0, 1, 3] : List Nat).length - 1 →
        out.getD i [] = listSlice [5, 6, 7] (([0, 1, 3] : List Nat).getD i 0)
          (([0, 1, 3] : List Nat).getD (i + 1) 0) :=
  iter_yields_row_slices [5, 6, 7] [0, 1, 3] (by decide)
    (by simp [List.chain'_cons]) (by decide)

/-- Claim C4: with the last offset below the overflow bound, `borrow_array`
and `into_array` on the same `(values, offsets)` produce the same binary
array: byte-identical value buffers and element-wise equal offset buffers,
each signed 64-bit offset being the bit-pattern reinterpretation of the
corresponding unsigned 64-bit offset. -/
theorem borrow_into_array_equiv (values offsets : List Nat) (l : Nat)
    (hl : offsets.getLast? = some l) (h : l < I64_MAX) :
    ∃ a, (RowsEncoded.new values offsets).borrow_array = some a ∧
      (RowsEncoded.new values offsets).into_array = some a ∧
      a.values = values ∧
      a.offsets = offsets.map u64ToI64 := by
  have hc : checks offsets = some () := by simp [checks, hl, h]
  refine ⟨{ dtype := ArrowDataType.LargeBinary,
            offsets := offsets.map u64ToI64, values := values,
            validity := none }, ?_, ?_, rfl, rfl⟩
  · simp [RowsEncoded.borrow_array, RowsEncoded.new, hc]
  · simp [RowsEncoded.into_array, rows_to_array, RowsEncoded.new, hc]

theorem borrow_into_array_equiv_witness :
    ∃ a, (RowsEncoded.new [7] [0, 1]).borrow_array = some a ∧
      (RowsEncoded.new [7] [0, 1]).into_array = some a ∧
      a.values = [7] ∧
      a.offsets = ([0, 1] : List Nat).map u64ToI64 :=
  borrow_into_array_equiv [7] [0, 1] 1 (by decide) (by decide)

/-- Claim C5: `iter()` is restartable and non-mutating — two successive
calls on the same unchanged buffer yield the same sequence, the iterator
merely borrows the buffer's `values`, and stepping the iterator never
changes the borrowed bytes. -/
theorem iter_restartable (r : RowsEncoded) (hne : r.offsets ≠ []) :
    (∃ out, r.iterCollect = some out ∧ r.iterCollect = some out) ∧
    (∀ it, r.iter = some it → it.values = r.values) ∧
    (∀ it s it', RowsEncodedIter.next it = some (s, it') →
      it'.values = it.values) := by
  obtain ⟨o, rest, hr⟩ : ∃ o rest, r.offsets = o :: rest := by
    cases h : r.offsets with
    | nil => exact absurd h hne
    | cons o rest => exact ⟨o, rest, rfl⟩
  have hiter : r.iter = some ⟨o, rest, r.values⟩ := by
    simp [RowsEncoded.iter, hr]
  refine ⟨⟨RowsEncodedIter.collect ⟨o, rest, r.values⟩, ?_, ?_⟩, ?_, ?_⟩
  · simp [RowsEncoded.iterCollect, hiter]
  · simp [RowsEncoded.iterCollect, hiter]
  · intro it hit
    rw [hiter] at hit
    cases hit
    rfl
  · intro it s it' h
    cases it with
    | mk off ends vals =>
      cases ends with
      | nil => simp [RowsEncodedIter.next] at h
      | cons e rest' =>
        simp [RowsEncodedIter.next] at h
        rw [← h.2]

theorem iter_restartable_witness :
    (∃ out, (RowsEncoded.new [1, 2] [0, 2]).iterCollect = some out ∧
      (RowsEncoded.new [1, 2] [0, 2]).iterCollect = some out) ∧
    (∀ it, (RowsEncoded.new [1, 2] [0, 2]).iter = some it →
      it.values = (RowsEncoded.new [1, 2] [0, 2]).values) ∧
    (∀ it s it', RowsEncodedIter.next it = some (s, it') →
      it'.values = it.values) :=
  iter_restartable (RowsEncoded.new [1, 2] [0, 2]) (by decide)

/-- Claim C6: whenever the overflow check passes, the binary arrays
produced by `into_array()` and `borrow_array()` carry no null/validity
buffer, regardless of the row contents. -/
theorem exported_arrays_no_validity (r : RowsEncoded) (a b : BinaryArray)
    (ha : r.into_array = some a) (hb : r.borrow_array = some b) :
    a.validity = none ∧ b.validity = none :=
  ⟨rows_to_array_validity_none r.values r.offsets a ha,
   borrow_array_validity_none r b hb⟩

theorem exported_arrays_no_validity_witness :
    ({ dtype := ArrowDataType.LargeBinary, offsets := [0], values := [],
       validity := none } : BinaryArray).validity = none ∧
    ({ dtype := ArrowDataType.LargeBinary, offsets := [0], values := [],
       validity := none } : BinaryArray).validity = none :=
  exported_arrays_no_validity (RowsEncoded.new [] [0]) _ _ rfl rfl

/-- Claim C8: on values "abcxy" (bytes [97, 98, 99, 120, 121]) and offsets
[0, 3, 3, 5], `iter()` yields exactly ["abc", "", "xy"] in that order, and
`into_array()` yields a binary array of length 3 with signed offsets
[0, 3, 3, 5] and value buffer "abcxy". -/
theorem concrete_scenario :
    (RowsEncoded.new [97, 98, 99, 120, 121] [0, 3, 3, 5]).iterCollect =
      some [[97, 98, 99], [], [120, 121]] ∧
    (RowsEncoded.new [97, 98, 99, 120, 121] [0, 3, 3, 5]).into_array =
      some { dtype := ArrowDataType.LargeBinary, offsets := [0, 3, 3, 5],
             values := [97, 98, 99, 120, 121], validity := none } ∧
    ((RowsEncoded.new [97, 98, 99, 120, 121] [0, 3, 3, 5]).into_array.map
       BinaryArray.len) = some 3 := by
  refine ⟨?_, ?_, ?_⟩ <;> decide

end PolarsRow

namespace PolarsArrow

theorem window_length_le {T : Type} (b : Buffer T) :
    b.window.length ≤ b.length := by
  simp [Buffer.window]

/-- Claim C3: importing the export of any typed primitive column —
`from_data (to_data a)` — yields a column with the same datatype tag, the
same element values over its offset/length window, and the same validity
bitmap as the original. -/
theorem from_to_data_round_trip {T : Type} (a : PrimitiveArray T) :
    (from_data (to_data a)).dtype = a.dtype ∧
    (from_data (to_data a)).values.window = a.values.window ∧
    (from_data (to_data a)).validity = a.validity := by
  refine ⟨rfl, ?_, rfl⟩
  simp [from_data, to_data, Buffer.slice, Buffer.from_arrow, Buffer.window,
    Buffer.into_arrow, PrimitiveArray.len]

end PolarsArrow
